import Mathlib

/-!
Verification of the batch-orchestration core of `slicer-regbet`
(`src/slicer_regbet/core.py`) against its natural-language specification.

The Python code is shallowly embedded: the filesystem is a total map from
path strings to entries, external subprocesses are oracles described by a
`SubprocBehavior` record (wall-clock duration, exit code, and the filesystem
state they leave behind), and each Python function of `core.py` becomes an
executable Lean definition of the same name.
-/

namespace SlicerRegbet

/-- A filesystem entry: a regular file with a byte size, a directory,
a missing path, or a path whose inspection raises an OS error. -/
inductive FsEntry
  | file (size : Nat)
  | dir
  | missing
  | accessError
deriving DecidableEq

/-- Paths are modelled as plain strings (POSIX-style, `/`-separated). -/
abbrev FPath := String

/-- A filesystem state: a total map from paths to entries. -/
abbrev Fs := FPath → FsEntry

/-- `Path.is_file()`: true exactly on regular-file entries. -/
def isFile (fs : Fs) (p : FPath) : Bool :=
  match fs p with
  | .file _ => true
  | _ => false

/-- `core.nonzero_file`: `p.is_file() and p.stat().st_size > 0`, with any
raised exception absorbed into `False`. -/
def nonzero_file (fs : Fs) (p : FPath) : Bool :=
  match fs p with
  | .file sz => decide (0 < sz)
  | _ => false

/-- `core.VALID_EXTS`: the fixed extension allow-list. -/
def VALID_EXTS : List String :=
  [".nii", ".nii.gz", ".nrrd", ".mha", ".mhd", ".nifti", ".hdr", ".img"]

/-- Strict lexicographic comparison of character lists by code point:
the order underlying Python's comparison of path strings. -/
def charListLt : List Char → List Char → Bool
  | [], [] => false
  | [], _ :: _ => true
  | _ :: _, [] => false
  | a :: as, b :: bs =>
    if a < b then true else if b < a then false else charListLt as bs

/-- `a ≤ b` on strings, as `not (b < a)` over the lexicographic order. -/
def strLe (a b : String) : Bool := !charListLt b.data a.data

/-- Split a character list at every `/`. -/
def splitSlash : List Char → List (List Char)
  | [] => [[]]
  | c :: rest =>
    let r := splitSlash rest
    if c = '/' then [] :: r
    else
      match r with
      | [] => [[c]]
      | h :: t => (c :: h) :: t

/-- Strict comparison of path-component tuples: lexicographic over the
per-component string comparison.  This is how Python orders `PurePath`
values — by the tuple of parts, not by the joined string. -/
def partsLt : List (List Char) → List (List Char) → Bool
  | [], [] => false
  | [], _ :: _ => true
  | _ :: _, [] => false
  | a :: as, b :: bs =>
    if charListLt a b then true
    else if charListLt b a then false
    else partsLt as bs

/-- `a ≤ b` on paths as Python's `sorted` compares `Path` objects:
`not (b < a)` over the parts-tuple order. -/
def pathLe (a b : FPath) : Bool :=
  !partsLt (splitSlash b.data) (splitSlash a.data)

/-- Python `str.lower()` (ASCII case folding, which covers the
extension allow-list). -/
def strLower (s : String) : String := String.mk (s.data.map Char.toLower)

/-- Python `str.endswith(post)`: `post` is a trailing substring of `s`,
compared as a whole. -/
def strEndsWith (s post : String) : Bool := post.data.isSuffixOf s.data

/-- The no-pattern discovery filter: `f.lower().endswith(VALID_EXTS)`. -/
def matchesExt (f : String) : Bool :=
  VALID_EXTS.any (fun e => strEndsWith (strLower f) e)

/-- Joining a directory path and an entry name (`dir / name`). -/
def joinPath (d f : FPath) : FPath := d ++ "/" ++ f

/-- What the operating system reports to discovery: `glob.glob` results for
the computed pattern, `os.listdir(in_dir)`, and `os.walk(in_dir)` as a list
of (root, files-in-root) pairs. -/
structure DiscoveryEnv where
  globResults : List FPath
  listing : List String
  walk : List (FPath × List String)

/-- Python's `sorted` on `Path` values: a stable ascending sort by the
parts-tuple order. -/
def sortPaths (l : List FPath) : List FPath :=
  List.insertionSort (fun a b => pathLe a b = true) l

/-- `core.find_images`: pattern mode keeps glob results that are regular
files; otherwise either a recursive walk or a flat listing is filtered by
the extension allow-list; the result is sorted. -/
def find_images (fs : Fs) (denv : DiscoveryEnv) (in_dir : FPath)
    (pattern : Option String) (recursive : Bool) : List FPath :=
  match pattern with
  | some _ => sortPaths (denv.globResults.filter (fun p => isFile fs p))
  | none =>
    if recursive then
      sortPaths ((denv.walk.map
        (fun rf => (rf.2.filter matchesExt).map (joinPath rf.1))).flatten)
    else
      sortPaths ((denv.listing.filter matchesExt).map (joinPath in_dir))

/-- The final component of a `/`-separated path (`Path(p).name`). -/
def pathName (p : FPath) : String :=
  String.mk (((splitSlash p.data).getLast?).getD p.data)

/-- Remove the last `n` characters (`b[:-n]` for `0 < n ≤ len(b)`). -/
def strDropRight (s : String) (n : Nat) : String :=
  String.mk (s.data.take (s.data.length - n))

/-- `Path(b).stem`: the name with its last suffix removed, where a suffix
needs a dot at position `i` with `0 < i < length - 1`. -/
def stem (b : String) : String :=
  let cs := b.data
  match cs.reverse.findIdx? (fun c => c == '.') with
  | none => b
  | some j =>
    let i := cs.length - 1 - j
    if 0 < i ∧ i < cs.length - 1 then String.mk (cs.take i) else b

/-- `core.basename_no_nii_gz`: strip a trailing `.nii.gz` as a unit,
otherwise take the stem of the final path component. -/
def basename_no_nii_gz (p : FPath) : String :=
  let b := pathName p
  if strEndsWith b ".nii.gz" then strDropRight b 7
  else stem b

/-- `core.Paths`: the five per-stage output directories. -/
structure OutPaths where
  reg_dir : FPath
  bet_dir : FPath
  seg_dir : FPath
  log_dir : FPath
  xfm_dir : FPath

/-- Point update of a filesystem state. -/
def setFs (fs : Fs) (p : FPath) (e : FsEntry) : Fs :=
  fun q => if q = p then e else fs q

/-- `core.ensure_dirs`: `mkdir(parents=True, exist_ok=True)` on each path. -/
def ensure_dirs (fs : Fs) (ds : List FPath) : Fs :=
  ds.foldl (fun acc d => setFs acc d .dir) fs

/-- The five subdirectory paths created under the output root. -/
def outSubdirs (out_dir : FPath) : List FPath :=
  [out_dir ++ "/register", out_dir ++ "/bet", out_dir ++ "/segment",
   out_dir ++ "/log", out_dir ++ "/transform"]

/-- `core.setup_output_dirs`: create the five subdirectories and return
their paths. -/
def setup_output_dirs (fs : Fs) (out_dir : FPath) : Fs × OutPaths :=
  (ensure_dirs fs (outSubdirs out_dir),
   ⟨out_dir ++ "/register", out_dir ++ "/bet", out_dir ++ "/segment",
    out_dir ++ "/log", out_dir ++ "/transform"⟩)

/-- Oracle describing one external process launch: how long the process
runs, its exit code, the filesystem it leaves on completion, and the
filesystem it leaves if abandoned on timeout. -/
structure SubprocBehavior where
  duration : Nat
  returncode : Int
  fsAfter : Fs
  fsOnTimeout : Fs

/-- `core.run_subprocess`: `subprocess.run(cmd, ..., timeout=timeout)`.
`none` means the call returns the completed process whenever it finishes;
with a ceiling `t`, a process running longer than `t` raises
`TimeoutExpired`, modelled as `none`. -/
def run_subprocess (timeout : Option Nat) (b : SubprocBehavior) :
    Option (Int × Fs) :=
  match timeout with
  | none => some (b.returncode, b.fsAfter)
  | some t => if b.duration ≤ t then some (b.returncode, b.fsAfter) else none

/-- The `timeout` argument `core.run_registration` passes to
`run_subprocess`: it passes none (no wall-clock ceiling). -/
def run_registration_timeout_arg : Option Nat := none

/-- The `timeout` argument `core.run_hdbet` passes to `run_subprocess`:
`bet_timeout + 120`. -/
def run_hdbet_timeout_arg (bet_timeout : Nat) : Option Nat :=
  some (bet_timeout + 120)

/-- `core.run_registration`: success is exactly `returncode == 0`. The
timeout branch is unreachable because the call passes no ceiling. -/
def run_registration (b : SubprocBehavior) : Bool × Fs :=
  match run_subprocess run_registration_timeout_arg b with
  | some (rc, fsA) => (decide (rc = 0), fsA)
  | none => (false, b.fsOnTimeout)

/-- `core.run_hdbet`: success requires exit code 0 and both declared
outputs non-empty after the process returns; `TimeoutExpired` is caught
and reported as failure. -/
def run_hdbet (out_bet out_seg : FPath) (bet_timeout : Nat)
    (b : SubprocBehavior) : Bool × Fs :=
  match run_subprocess (run_hdbet_timeout_arg bet_timeout) b with
  | some (rc, fsA) =>
    (decide (rc = 0) && nonzero_file fsA out_bet && nonzero_file fsA out_seg,
     fsA)
  | none => (false, b.fsOnTimeout)

/-- The five expected artifact paths of one work item, as computed at the
top of `core.process_case`. -/
structure CasePaths where
  out_reg : FPath
  out_xfm : FPath
  out_bet : FPath
  out_seg : FPath
  bet_log : FPath

/-- The artifact paths derived from the item's stable name. -/
def casePaths (op : OutPaths) (name : String) : CasePaths :=
  ⟨op.reg_dir ++ "/" ++ name ++ "_register.nii.gz",
   op.xfm_dir ++ "/" ++ name ++ "_to_MNI.h5",
   op.bet_dir ++ "/" ++ name ++ "_register_BET.nii.gz",
   op.seg_dir ++ "/" ++ name ++ "_register_SEG.seg.nrrd",
   op.log_dir ++ "/" ++ name ++ "_hdbet.log"⟩

/-- Per-item outcome of the pipeline controller. `process_case` returns a
bare boolean; the outcome labels its four return sites (skip branch,
stage-1 failure, stage-2 failure, success). -/
inductive CaseOutcome
  | Skipped
  | Succeeded
  | FailedStage1
  | FailedStage2
deriving DecidableEq

/-- Which stage executors a `process_case` call launched, in order. -/
inductive StageRun
  | registration
  | hdbet
deriving DecidableEq

/-- Oracles for the (at most two) external launches of one item. -/
structure CaseEnv where
  regProc : SubprocBehavior
  betProc : SubprocBehavior

/-- Result of one `process_case` call: the outcome, the filesystem state
on return, and the executors launched. -/
structure CaseResult where
  outcome : CaseOutcome
  fs : Fs
  launches : List StageRun

/-- `process_case`'s boolean return value: true on skip or success. -/
def caseOk (o : CaseOutcome) : Bool :=
  match o with
  | .Skipped => true
  | .Succeeded => true
  | .FailedStage1 => false
  | .FailedStage2 => false

/-- The stage-2 half of `core.process_case` (lines 164-177): re-stat the
BET outputs, run HD-BET when one is missing/empty or overwrite is set,
otherwise skip it; success falls through to the final return True. -/
def stage2_step (fs : Fs) (cp : CasePaths) (overwrite : Bool)
    (env : CaseEnv) (bet_timeout : Nat) (launched : List StageRun) :
    CaseResult :=
  if !nonzero_file fs cp.out_bet || !nonzero_file fs cp.out_seg || overwrite
  then
    let r2 := run_hdbet cp.out_bet cp.out_seg bet_timeout env.betProc
    if !r2.1 then ⟨.FailedStage2, r2.2, launched ++ [.hdbet]⟩
    else ⟨.Succeeded, r2.2, launched ++ [.hdbet]⟩
  else ⟨.Succeeded, fs, launched⟩

/-- `core.process_case`: skip when all four artifacts are non-empty and
overwrite is off; run registration exactly when the registered volume is
missing/empty or overwrite is set; on registration failure stop with
stage-1 failure; then the stage-2 half. -/
def process_case (fs : Fs) (cp : CasePaths) (overwrite : Bool)
    (env : CaseEnv) (bet_timeout : Nat) : CaseResult :=
  if nonzero_file fs cp.out_reg && nonzero_file fs cp.out_xfm &&
      nonzero_file fs cp.out_bet && nonzero_file fs cp.out_seg && !overwrite
  then ⟨.Skipped, fs, []⟩
  else if !nonzero_file fs cp.out_reg || overwrite then
    let r1 := run_registration env.regProc
    if !r1.1 then ⟨.FailedStage1, r1.2, [.registration]⟩
    else stage2_step r1.2 cp overwrite env bet_timeout [.registration]
  else stage2_step fs cp overwrite env bet_timeout []

/-- The per-item loop of `core.run_batch` (lines 210-215): process the
discovered items in order, threading the filesystem, and collect each
item's outcome. -/
def runCases (fs : Fs) (op : OutPaths) (overwrite : Bool)
    (bet_timeout : Nat) (env : FPath → CaseEnv) :
    List FPath → Fs × List (FPath × CaseOutcome)
  | [] => (fs, [])
  | mov :: rest =>
    let r := process_case fs (casePaths op (basename_no_nii_gz mov))
      overwrite (env mov) bet_timeout
    let tailRes := runCases r.fs op overwrite bet_timeout env rest
    (tailRes.1, (mov, r.outcome) :: tailRes.2)

/-- Result of one batch run: process exit status, final filesystem,
per-item outcomes in discovery order, and the summary counts logged at
the end (`done` out of `total`; both 0 when the batch aborts early). -/
structure BatchResult where
  exitCode : Int
  fs : Fs
  outcomes : List (FPath × CaseOutcome)
  done : Nat
  total : Nat

/-- `core.run_batch`: create the output directories, then check the tool
and the atlas (status 2 on either missing), then discover work (status 1
when empty), then process every item and reduce to a binary status. -/
def run_batch (fs : Fs) (denv : DiscoveryEnv)
    (in_dir atlas out_dir slicer : FPath) (pattern : Option String)
    (recursive : Bool) (overwrite : Bool) (bet_timeout : Nat)
    (env : FPath → CaseEnv) : BatchResult :=
  let s := setup_output_dirs fs out_dir
  let fs0 := s.1
  if !isFile fs0 slicer then ⟨2, fs0, [], 0, 0⟩
  else if !isFile fs0 atlas then ⟨2, fs0, [], 0, 0⟩
  else
    let imgs := find_images fs0 denv in_dir pattern recursive
    if imgs.isEmpty then ⟨1, fs0, [], 0, 0⟩
    else
      let r := runCases fs0 s.2 overwrite bet_timeout env imgs
      let done := (r.2.filter (fun po => caseOk po.2)).length
      ⟨if done = imgs.length then 0 else 1, r.1, r.2, done, imgs.length⟩

/-! Concrete scenario data for counterexamples and witnesses. -/

/-- A filesystem with no entries at all. -/
def emptyFs : Fs := fun _ => .missing

/-- A process that returns immediately with exit code 0 and leaves an
empty filesystem. -/
def procZero : SubprocBehavior := ⟨0, 0, emptyFs, emptyFs⟩

/-- Both executors return 0 immediately but produce nothing. -/
def envX : CaseEnv := ⟨procZero, procZero⟩

/-- The output directory layout rooted at "out". -/
def outPathsX : OutPaths := (setup_output_dirs emptyFs "out").2

/-- Artifact paths of the item named "m" under the "out" layout. -/
def cpX : CasePaths := casePaths outPathsX "m"

/-- A filesystem holding only item m's registered volume (10 bytes); the
transform, BET volume and segmentation are absent. -/
def fsRegOnly : Fs := fun p =>
  if p = "out/register/m_register.nii.gz" then .file 10 else .missing

/-- A filesystem holding non-empty files "b" and "s". -/
def fsbs : Fs := fun p =>
  if p = "b" then .file 1 else if p = "s" then .file 2 else .missing

/-- A filesystem with a zero-byte file at "z" and access errors
everywhere else. -/
def fsZeroByte : Fs := fun p =>
  if p = "z" then .file 0 else .accessError

/-- Starting filesystem of the batch scenarios: the launcher and the atlas
exist, item m's registered volume exists (10 bytes), nothing else. -/
def fsStart : Fs := fun p =>
  if p = "slicer" then .file 1
  else if p = "atlas.nii" then .file 1
  else if p = "out/register/m_register.nii.gz" then .file 10
  else .missing

/-- Discovery input: the input directory lists the single file
"m.nii.gz". -/
def denvM : DiscoveryEnv := ⟨[], ["m.nii.gz"], []⟩

/-- Discovery input: the input directory is empty. -/
def denvEmpty : DiscoveryEnv := ⟨[], [], []⟩

/-- Filesystem left behind by a successful HD-BET launch for item m: the
BET volume and segmentation now exist, the transform still does not. -/
def fsAfterBet : Fs := fun p =>
  if p = "slicer" then .file 1
  else if p = "atlas.nii" then .file 1
  else if p = "out/register/m_register.nii.gz" then .file 10
  else if p = "out/bet/m_register_BET.nii.gz" then .file 5
  else if p = "out/segment/m_register_SEG.seg.nrrd" then .file 5
  else .missing

/-- Per-item oracles of the batch scenarios: registration exits 0 at once;
HD-BET exits 0 at once and leaves `fsAfterBet`. -/
def envBatch : FPath → CaseEnv :=
  fun _ => ⟨procZero, ⟨0, 0, fsAfterBet, emptyFs⟩⟩

/-- First batch run of the idempotence scenario. -/
def firstRun : BatchResult :=
  run_batch fsStart denvM "in" "atlas.nii" "out" "slicer" none false false
    1800 envBatch

/-- Second batch run, on the filesystem the first run left behind. -/
def secondRun : BatchResult :=
  run_batch firstRun.fs denvM "in" "atlas.nii" "out" "slicer" none false
    false 1800 envBatch

/-- A filesystem where item m's four artifacts are all complete, the
five output directories exist, and launcher and atlas are present. -/
def fsComplete : Fs := fun p =>
  if p = "slicer" then .file 1
  else if p = "atlas.nii" then .file 1
  else if p = "out/register/m_register.nii.gz" then .file 10
  else if p = "out/transform/m_to_MNI.h5" then .file 4
  else if p = "out/bet/m_register_BET.nii.gz" then .file 5
  else if p = "out/segment/m_register_SEG.seg.nrrd" then .file 5
  else if p = "out/register" then .dir
  else if p = "out/bet" then .dir
  else if p = "out/segment" then .dir
  else if p = "out/log" then .dir
  else if p = "out/transform" then .dir
  else .missing

/-- Discovery inputs exercising all three discovery modes. -/
def denvW : DiscoveryEnv :=
  ⟨["in/g2.nii", "in/g1.nii", "in/skip.txt"],
   ["B.NII.GZ", "a.nrrd", "notes.txt"],
   [("in", ["a.nii", "z.txt"]), ("in/sub", ["b.mha"])]⟩

/-- A filesystem holding the two glob results that are regular files. -/
def fsW : Fs := fun p =>
  if p = "in/g2.nii" then .file 3
  else if p = "in/g1.nii" then .file 3
  else .missing

/-- Recursive-walk discovery input with mixed-depth results: the root
holds `a.b.nii`, its subdirectory `in/a` holds `c.nii`. -/
def denvLex : DiscoveryEnv :=
  ⟨[], [], [("in", ["a.b.nii"]), ("in/a", ["c.nii"])]⟩

/-! Helper lemmas. -/

/-- String append is left-cancellative. -/
theorem str_append_left_cancel {a b c : String} (h : a ++ b = a ++ c) :
    b = c := by
  have hd : a.data ++ b.data = a.data ++ c.data := by
    have := congrArg String.data h
    simpa [String.data_append] using this
  cases b
  cases c
  exact congrArg String.mk (List.append_cancel_left hd)

/-- `run_registration` reports success exactly when the process exit
code is 0, whatever its duration. -/
theorem run_registration_ok_iff (b : SubprocBehavior) :
    (run_registration b).1 = true ↔ b.returncode = 0 := by
  simp [run_registration, run_subprocess, run_registration_timeout_arg]

/-! ### C8 — artifact-status check -/

/-- C8: `nonzero_file` is a total boolean check, true exactly when the
path is a regular file of strictly positive size; a filesystem access
error yields `false` (treated as absent) rather than an exception, and
an existing zero-byte file is classified as absent. -/
theorem nonzero_file_spec (fs : Fs) (p : FPath) :
    (nonzero_file fs p = true ↔ ∃ sz, fs p = FsEntry.file sz ∧ 0 < sz) ∧
    (fs p = FsEntry.accessError → nonzero_file fs p = false) ∧
    (fs p = FsEntry.file 0 → nonzero_file fs p = false) := by
  refine ⟨?_, ?_, ?_⟩ <;> cases h : fs p <;> simp_all [nonzero_file]

/-- Witness for C8 at concrete inputs: a zero-byte file counts as
absent, a 10-byte file counts as present. -/
theorem nonzero_file_spec_witness :
    nonzero_file fsZeroByte "z" = false ∧
    nonzero_file fsRegOnly "out/register/m_register.nii.gz" = true :=
  ⟨(nonzero_file_spec fsZeroByte "z").2.2 (by decide),
   (nonzero_file_spec fsRegOnly "out/register/m_register.nii.gz").1.mpr
     ⟨10, by decide, by decide⟩⟩

/-! ### C5 — stage-2 success classification -/

/-- C5: when the stage-2 host process returns within the ceiling,
`run_hdbet` reports success iff the exit status is 0 and both declared
output artifacts are non-empty after the process returns; a zero exit
status with a missing or empty output is a failure. -/
theorem run_hdbet_success_iff (ob osg : FPath) (bt : Nat)
    (b : SubprocBehavior) (h : b.duration ≤ bt + 120) :
    (run_hdbet ob osg bt b).1 = true ↔
      b.returncode = 0 ∧ nonzero_file b.fsAfter ob = true ∧
        nonzero_file b.fsAfter osg = true := by
  simp [run_hdbet, run_subprocess, run_hdbet_timeout_arg, h, and_assoc]

/-- Witness for C5: a concrete process exiting 0 with both outputs
written is a success. -/
theorem run_hdbet_success_iff_witness :
    (run_hdbet "b" "s" 10 ⟨0, 0, fsbs, emptyFs⟩).1 = true :=
  (run_hdbet_success_iff "b" "s" 10 ⟨0, 0, fsbs, emptyFs⟩ (by decide)).mpr
    ⟨rfl, by decide, by decide⟩

/-! ### C6 — wall-clock ceilings -/

/-- C6 is false as stated: the stage-1 caller passes no wall-clock
ceiling to `run_subprocess` (the timeout argument is `none`), and a
stage-1 process taking 10^9 seconds is still waited for and classified
by its exit code alone — here as a success — instead of yielding a
timeout failure. -/
theorem stage1_unbounded_wait_cex :
    run_registration_timeout_arg = none ∧
    (run_registration ⟨10 ^ 9, 0, emptyFs, emptyFs⟩).1 = true :=
  ⟨rfl, by decide⟩

/-- C6 amended: only stage 2 has a hard wall-clock ceiling
(`bet_timeout + 120` passed to the subprocess wait); a stage-2 process
exceeding it yields failure (`FailedStage2`, not `Succeeded`), while the
stage-1 wait is unbounded (its timeout argument is `none`). -/
theorem stage2_ceiling_stage1_none (bt : Nat) (b : SubprocBehavior)
    (h : bt + 120 < b.duration) (fs : Fs) (cp : CasePaths)
    (rp : SubprocBehavior) (h2 : nonzero_file fs cp.out_bet = false) :
    run_hdbet_timeout_arg bt = some (bt + 120) ∧
    (run_hdbet cp.out_bet cp.out_seg bt b).1 = false ∧
    (stage2_step fs cp false ⟨rp, b⟩ bt []).outcome =
      CaseOutcome.FailedStage2 ∧
    run_registration_timeout_arg = none := by
  have hb : ¬ b.duration ≤ bt + 120 := by omega
  refine ⟨rfl, ?_, ?_, rfl⟩
  · simp [run_hdbet, run_subprocess, run_hdbet_timeout_arg, hb]
  · simp [stage2_step, h2, run_hdbet, run_subprocess, run_hdbet_timeout_arg,
      hb]

/-- Witness for the amended C6: a process running 121 s against a 0 s
configured timeout (ceiling 120 s) makes the stage-2 step fail. -/
theorem stage2_ceiling_stage1_none_witness :
    (stage2_step emptyFs cpX false ⟨procZero, ⟨121, 0, emptyFs, emptyFs⟩⟩ 0
      []).outcome = CaseOutcome.FailedStage2 :=
  (stage2_ceiling_stage1_none 0 ⟨121, 0, emptyFs, emptyFs⟩ (by decide)
    emptyFs cpX procZero (by decide)).2.2.1

/-! ### C1 — stage-2 gating -/

/-- C1 is false as stated: with the registered volume present (10 bytes)
but the transform file absent, stage 1's artifact set is incomplete, yet
stage 2 is executed without stage 1 having been run in this run. -/
theorem stage2_despite_incomplete_stage1_cex :
    StageRun.hdbet ∈ (process_case fsRegOnly cpX false envX 1800).launches ∧
    StageRun.registration ∉
      (process_case fsRegOnly cpX false envX 1800).launches ∧
    nonzero_file fsRegOnly cpX.out_xfm = false := by decide

/-- C1 amended: stage 2 is never executed unless the registered volume
alone was non-empty on entry (without overwrite), or stage 1 was just
executed in this run and reported success (exit code 0); the transform
file is not part of the gate. -/
theorem stage2_requires_reg_volume_or_stage1_success (fs : Fs)
    (cp : CasePaths) (ow : Bool) (env : CaseEnv) (bt : Nat)
    (h : StageRun.hdbet ∈ (process_case fs cp ow env bt).launches) :
    (StageRun.registration ∈ (process_case fs cp ow env bt).launches ∧
      env.regProc.returncode = 0) ∨
    (nonzero_file fs cp.out_reg = true ∧ ow = false) := by
  simp only [process_case, stage2_step] at h ⊢
  split_ifs at h ⊢ with h1 h2 h3 h4 h5 <;>
    simp_all [run_registration_ok_iff, run_registration, run_subprocess,
      run_registration_timeout_arg, Bool.or_eq_false_iff, Bool.not_eq_true']

/-- Witness for the amended C1 at the concrete scenario: stage 2 ran,
and indeed the registered volume was non-empty with no overwrite. -/
theorem stage2_requires_reg_volume_or_stage1_success_witness :
    (StageRun.registration ∈
        (process_case fsRegOnly cpX false envX 1800).launches ∧
      envX.regProc.returncode = 0) ∨
    (nonzero_file fsRegOnly cpX.out_reg = true ∧ false = false) :=
  stage2_requires_reg_volume_or_stage1_success fsRegOnly cpX false envX 1800
    (by decide)

/-! ### C2 — stage-1 invocation condition -/

/-- C2 is false as stated: for an item whose stage-1 artifact set is
incomplete because the transform is missing while the registered volume
is present, and without overwrite, the stage-1 executor is not
invoked. -/
theorem stage1_skipped_despite_missing_transform_cex :
    nonzero_file fsRegOnly cpX.out_xfm = false ∧
    nonzero_file fsRegOnly cpX.out_reg = true ∧
    StageRun.registration ∉
      (process_case fsRegOnly cpX false envX 1800).launches := by decide

/-- C2 amended: when the all-artifacts skip does not apply, the stage-1
executor is invoked iff the registered volume is missing or empty, or
overwrite is requested; the transform's status plays no role. -/
theorem stage1_invoked_iff_reg_missing_or_overwrite (fs : Fs)
    (cp : CasePaths) (ow : Bool) (env : CaseEnv) (bt : Nat)
    (h : (nonzero_file fs cp.out_reg && nonzero_file fs cp.out_xfm &&
      nonzero_file fs cp.out_bet && nonzero_file fs cp.out_seg && !ow)
      = false) :
    StageRun.registration ∈ (process_case fs cp ow env bt).launches ↔
      (nonzero_file fs cp.out_reg = false ∨ ow = true) := by
  simp only [process_case, stage2_step, h]
  split_ifs with h1 h2 h3 h4 <;>
    simp_all [Bool.or_eq_false_iff, Bool.not_eq_true']

/-- Witness for the amended C2: with the registered volume absent, the
stage-1 executor is invoked. -/
theorem stage1_invoked_iff_reg_missing_or_overwrite_witness :
    StageRun.registration ∈
      (process_case emptyFs cpX false envX 1800).launches :=
  (stage1_invoked_iff_reg_missing_or_overwrite emptyFs cpX false envX 1800
    (by decide)).mpr (Or.inl (by decide))

/-! ### C3 — skip branch and idempotence -/

/-- The skip branch of `process_case`: with all four artifacts non-empty
and overwrite off, the call returns `Skipped` with no launches and the
filesystem untouched. -/
theorem process_case_skip (fs : Fs) (cp : CasePaths) (env : CaseEnv)
    (bt : Nat) (h1 : nonzero_file fs cp.out_reg = true)
    (h2 : nonzero_file fs cp.out_xfm = true)
    (h3 : nonzero_file fs cp.out_bet = true)
    (h4 : nonzero_file fs cp.out_seg = true) :
    process_case fs cp false env bt = ⟨CaseOutcome.Skipped, fs, []⟩ := by
  simp [process_case, h1, h2, h3, h4]

/-- When every item's artifacts are complete, the per-item loop skips
every item and leaves the filesystem unchanged. -/
theorem runCases_all_skip (op : OutPaths) (bt : Nat)
    (env : FPath → CaseEnv) (imgs : List FPath) (fs : Fs)
    (h : ∀ mov ∈ imgs,
      nonzero_file fs (casePaths op (basename_no_nii_gz mov)).out_reg
        = true ∧
      nonzero_file fs (casePaths op (basename_no_nii_gz mov)).out_xfm
        = true ∧
      nonzero_file fs (casePaths op (basename_no_nii_gz mov)).out_bet
        = true ∧
      nonzero_file fs (casePaths op (basename_no_nii_gz mov)).out_seg
        = true) :
    runCases fs op false bt env imgs =
      (fs, imgs.map (fun m => (m, CaseOutcome.Skipped))) := by
  induction imgs with
  | nil => rfl
  | cons m rest ih =>
    have hm := h m (List.mem_cons_self m rest)
    simp [runCases,
      process_case_skip fs _ (env m) bt hm.1 hm.2.1 hm.2.2.1 hm.2.2.2,
      ih (fun mv hmv => h mv (List.mem_cons_of_mem m hmv))]

/-- When the five output directories already exist, directory setup
leaves the filesystem unchanged. -/
theorem setup_preserves (fs : Fs) (od : FPath)
    (h : ∀ d ∈ outSubdirs od, fs d = FsEntry.dir) :
    (setup_output_dirs fs od).1 = fs := by
  have h1 := h (od ++ "/register") (by simp [outSubdirs])
  have h2 := h (od ++ "/bet") (by simp [outSubdirs])
  have h3 := h (od ++ "/segment") (by simp [outSubdirs])
  have h4 := h (od ++ "/log") (by simp [outSubdirs])
  have h5 := h (od ++ "/transform") (by simp [outSubdirs])
  funext q
  simp only [setup_output_dirs, ensure_dirs, outSubdirs, List.foldl, setFs]
  split_ifs with e1 e2 e3 e4 e5 <;> simp_all

/-- C3 amended: (i) for every item whose four expected artifacts are all
non-empty and with overwrite off, the controller outcome is `Skipped`
(counted as success), no executor is launched, and the filesystem is
unchanged; (ii) hence a second batch run skips every item and exits 0
provided the first run left every discovered item's four artifacts
complete — which a merely *successful* first run need not do, since an
item can succeed while its transform artifact stays absent. -/
theorem all_artifacts_complete_skips :
    (∀ (fs : Fs) (cp : CasePaths) (env : CaseEnv) (bt : Nat),
      nonzero_file fs cp.out_reg = true →
      nonzero_file fs cp.out_xfm = true →
      nonzero_file fs cp.out_bet = true →
      nonzero_file fs cp.out_seg = true →
      process_case fs cp false env bt = ⟨CaseOutcome.Skipped, fs, []⟩ ∧
        caseOk CaseOutcome.Skipped = true) ∧
    (∀ (fs : Fs) (denv : DiscoveryEnv) (in_dir atlas od slicer : FPath)
      (bt : Nat) (env : FPath → CaseEnv),
      (∀ d ∈ outSubdirs od, fs d = FsEntry.dir) →
      isFile fs slicer = true →
      isFile fs atlas = true →
      find_images fs denv in_dir none false ≠ [] →
      (∀ mov ∈ find_images fs denv in_dir none false,
        nonzero_file fs (casePaths (setup_output_dirs fs od).2
          (basename_no_nii_gz mov)).out_reg = true ∧
        nonzero_file fs (casePaths (setup_output_dirs fs od).2
          (basename_no_nii_gz mov)).out_xfm = true ∧
        nonzero_file fs (casePaths (setup_output_dirs fs od).2
          (basename_no_nii_gz mov)).out_bet = true ∧
        nonzero_file fs (casePaths (setup_output_dirs fs od).2
          (basename_no_nii_gz mov)).out_seg = true) →
      (run_batch fs denv in_dir atlas od slicer none false false bt
          env).fs = fs ∧
      (run_batch fs denv in_dir atlas od slicer none false false bt
          env).outcomes =
        (find_images fs denv in_dir none false).map
          (fun m => (m, CaseOutcome.Skipped)) ∧
      (run_batch fs denv in_dir atlas od slicer none false false bt
          env).exitCode = 0) := by
  constructor
  · intro fs cp env bt h1 h2 h3 h4
    exact ⟨process_case_skip fs cp env bt h1 h2 h3 h4, rfl⟩
  · intro fs denv in_dir atlas od slicer bt env hdirs hsl hat hne hall
    have hset : (setup_output_dirs fs od).1 = fs := setup_preserves fs od hdirs
    have hrc := runCases_all_skip (setup_output_dirs fs od).2 bt env
      (find_images fs denv in_dir none false) fs hall
    have hie : (find_images fs denv in_dir none false).isEmpty = false := by
      cases hfi : find_images fs denv in_dir none false with
      | nil => exact absurd hfi hne
      | cons a l => rfl
    have hflt : ((find_images fs denv in_dir none false).map
        (fun m => (m, CaseOutcome.Skipped))).filter
          (fun po => caseOk po.2) =
        (find_images fs denv in_dir none false).map
          (fun m => (m, CaseOutcome.Skipped)) := by
      apply List.filter_eq_self.mpr
      intro po hpo
      rcases List.mem_map.mp hpo with ⟨m, hm, rfl⟩
      rfl
    simp only [run_batch, hset, hsl, hat, Bool.not_true, Bool.false_eq_true,
      if_false, hie, hrc, hflt, List.length_map, if_pos]
    exact ⟨trivial, trivial, trivial⟩

/-- Witness for the amended C3: on a filesystem with all artifacts of
the single discovered item complete, the batch skips it and exits 0. -/
theorem all_artifacts_complete_skips_witness :
    (run_batch fsComplete denvM "in" "atlas.nii" "out" "slicer" none false
      false 1800 envBatch).outcomes =
      [("in/m.nii.gz", CaseOutcome.Skipped)] ∧
    (run_batch fsComplete denvM "in" "atlas.nii" "out" "slicer" none false
      false 1800 envBatch).exitCode = 0 :=
  have h := all_artifacts_complete_skips.2 fsComplete denvM "in" "atlas.nii"
    "out" "slicer" 1800 envBatch (by decide) (by decide) (by decide)
    (by decide) (by decide)
  ⟨h.2.1.trans (by decide), h.2.2⟩

/-- C3 is false in its final clause: the first batch run is fully
successful (exit status 0, the only item `Succeeded`), yet the second
run does not skip the item — its outcome is again `Succeeded`, because
the transform artifact was never produced and never checked by the
stage-1 skip test. -/
theorem second_run_not_skipped_cex :
    firstRun.exitCode = 0 ∧
    firstRun.outcomes = [("in/m.nii.gz", CaseOutcome.Succeeded)] ∧
    secondRun.outcomes = [("in/m.nii.gz", CaseOutcome.Succeeded)] ∧
    CaseOutcome.Succeeded ≠ CaseOutcome.Skipped := by
  refine ⟨by decide, by decide, by decide, by decide⟩

/-! ### C4 — empty-discovery exit status -/

/-- C4 is false as stated: with the launcher and atlas present but zero
discovered items, the batch exits with status 1 — the same status used
when at least one item fails, not a status distinct from 1. -/
theorem empty_discovery_exit_one_cex :
    (run_batch fsStart denvEmpty "in" "atlas.nii" "out" "slicer" none false
      false 1800 envBatch).exitCode = 1 := by decide

/-- C4 amended: when discovery finds zero items (and the preconditions
hold), the batch aborts with status 1 and no per-item outcomes; this is
distinct from 0 (all succeeded/skipped) and from the precondition
status 2, but identical to the at-least-one-item-failed status 1. -/
theorem empty_discovery_status (fs : Fs) (denv : DiscoveryEnv)
    (in_dir atlas od slicer : FPath) (pat : Option String) (rcv ow : Bool)
    (bt : Nat) (env : FPath → CaseEnv)
    (hsl : isFile (setup_output_dirs fs od).1 slicer = true)
    (hat : isFile (setup_output_dirs fs od).1 atlas = true)
    (he : find_images (setup_output_dirs fs od).1 denv in_dir pat rcv = []) :
    (run_batch fs denv in_dir atlas od slicer pat rcv ow bt env).exitCode
      = 1 ∧
    (run_batch fs denv in_dir atlas od slicer pat rcv ow bt env).outcomes
      = [] ∧
    (1 : Int) ≠ 0 ∧ (1 : Int) ≠ 2 := by
  simp [run_batch, hsl, hat, he]

/-- Witness for the amended C4 at the concrete empty-input scenario. -/
theorem empty_discovery_status_witness :
    (run_batch fsStart denvEmpty "in" "atlas.nii" "out" "slicer" none false
      false 1800 envBatch).exitCode = 1 ∧
    (run_batch fsStart denvEmpty "in" "atlas.nii" "out" "slicer" none false
      false 1800 envBatch).outcomes = [] ∧
    (1 : Int) ≠ 0 ∧ (1 : Int) ≠ 2 :=
  empty_discovery_status fsStart denvEmpty "in" "atlas.nii" "out" "slicer"
    none false false 1800 envBatch (by decide) (by decide) (by decide)

/-! ### C7 — batch reduction -/

/-- The per-item loop yields exactly one outcome per item, in order. -/
theorem runCases_fst_map (op : OutPaths) (ow : Bool) (bt : Nat)
    (env : FPath → CaseEnv) :
    ∀ (imgs : List FPath) (fs : Fs),
      (runCases fs op ow bt env imgs).2.map Prod.fst = imgs := by
  intro imgs
  induction imgs with
  | nil => intro fs; rfl
  | cons m rest ih => intro fs; simp [runCases, ih]

/-- One outcome per discovered item. -/
theorem runCases_length (op : OutPaths) (ow : Bool) (bt : Nat)
    (env : FPath → CaseEnv) (imgs : List FPath) (fs : Fs) :
    (runCases fs op ow bt env imgs).2.length = imgs.length := by
  have h := congrArg List.length (runCases_fst_map op ow bt env imgs fs)
  simpa using h

/-- C7: with at least one discovered item and the preconditions
satisfied, the batch exit status is 0 iff every item's outcome is
`Succeeded` or `Skipped`, and 1 iff at least one item failed; the final
summary counts the `Succeeded`/`Skipped` outcomes out of the total
number of discovered items. -/
theorem batch_exit_status_spec (fs : Fs) (denv : DiscoveryEnv)
    (in_dir atlas od slicer : FPath) (pat : Option String) (rcv ow : Bool)
    (bt : Nat) (env : FPath → CaseEnv)
    (hsl : isFile (setup_output_dirs fs od).1 slicer = true)
    (hat : isFile (setup_output_dirs fs od).1 atlas = true)
    (hne : find_images (setup_output_dirs fs od).1 denv in_dir pat rcv
      ≠ []) :
    (run_batch fs denv in_dir atlas od slicer pat rcv ow bt
        env).outcomes.map Prod.fst =
      find_images (setup_output_dirs fs od).1 denv in_dir pat rcv ∧
    ((run_batch fs denv in_dir atlas od slicer pat rcv ow bt
        env).exitCode = 0 ↔
      ∀ po ∈ (run_batch fs denv in_dir atlas od slicer pat rcv ow bt
        env).outcomes, caseOk po.2 = true) ∧
    ((run_batch fs denv in_dir atlas od slicer pat rcv ow bt
        env).exitCode = 1 ↔
      ∃ po ∈ (run_batch fs denv in_dir atlas od slicer pat rcv ow bt
        env).outcomes, caseOk po.2 = false) ∧
    (run_batch fs denv in_dir atlas od slicer pat rcv ow bt env).done =
      ((run_batch fs denv in_dir atlas od slicer pat rcv ow bt
        env).outcomes.filter (fun po => caseOk po.2)).length ∧
    (run_batch fs denv in_dir atlas od slicer pat rcv ow bt env).total =
      (run_batch fs denv in_dir atlas od slicer pat rcv ow bt
        env).outcomes.length ∧
    (∀ o, caseOk o = true ↔
      (o = CaseOutcome.Succeeded ∨ o = CaseOutcome.Skipped)) := by
  have hie : (find_images (setup_output_dirs fs od).1 denv in_dir pat
      rcv).isEmpty = false := by
    cases hfi : find_images (setup_output_dirs fs od).1 denv in_dir pat rcv
      with
    | nil => exact absurd hfi hne
    | cons a l => rfl
  simp only [run_batch, hsl, hat, Bool.not_true, Bool.false_eq_true,
    if_false, hie]
  set fs0 := (setup_output_dirs fs od).1 with hfs0
  set imgs := find_images fs0 denv in_dir pat rcv with himgs
  set r2 := (runCases fs0 (setup_output_dirs fs od).2 ow bt env imgs).2
    with hr2
  have hmap : r2.map Prod.fst = imgs :=
    runCases_fst_map (setup_output_dirs fs od).2 ow bt env imgs fs0
  have hlen : r2.length = imgs.length :=
    runCases_length (setup_output_dirs fs od).2 ow bt env imgs fs0
  have key : (r2.filter (fun po => caseOk po.2)).length = imgs.length ↔
      ∀ po ∈ r2, caseOk po.2 = true := by
    rw [← List.countP_eq_length_filter, ← hlen]
    exact List.countP_eq_length
  refine ⟨hmap, ?_, ?_, trivial, hlen.symm, ?_⟩
  · rw [← key]
    split_ifs with hc <;> simp [hc]
  · have hex : (∃ po ∈ r2, caseOk po.2 = false) ↔
        ¬ ∀ po ∈ r2, caseOk po.2 = true := by
      simp [not_forall, Bool.not_eq_true]
    rw [hex, ← key]
    split_ifs with hc <;> simp [hc]
  · intro o
    cases o <;> simp [caseOk]

/-- Witness for C7 at the concrete one-item scenario (all preconditions
discharged, one item discovered, batch exits 0). -/
theorem batch_exit_status_spec_witness :
    (run_batch fsStart denvM "in" "atlas.nii" "out" "slicer" none false
        false 1800 envBatch).exitCode = 0 ↔
      ∀ po ∈ (run_batch fsStart denvM "in" "atlas.nii" "out" "slicer" none
        false false 1800 envBatch).outcomes, caseOk po.2 = true :=
  (batch_exit_status_spec fsStart denvM "in" "atlas.nii" "out" "slicer"
    none false false 1800 envBatch (by decide) (by decide) (by decide)).2.1

/-! ### C10 — unconditional directory creation -/

/-- The five subdirectories are directories after setup, whatever the
prior filesystem held there. -/
theorem setup_creates_dirs (fs : Fs) (od : FPath) :
    ∀ d ∈ outSubdirs od, (setup_output_dirs fs od).1 d = FsEntry.dir := by
  intro d hd
  simp only [outSubdirs, List.mem_cons, List.not_mem_nil, or_false] at hd
  simp only [setup_output_dirs, ensure_dirs, outSubdirs, List.foldl, setFs]
  rcases hd with rfl | rfl | rfl | rfl | rfl <;> split_ifs <;> simp_all

/-- C10: every batch invocation creates the five output subdirectories
(register, bet, segment, log, transform) before the tool/atlas
precondition checks and before discovery run: a batch that aborts with
the precondition status 2 or the empty-discovery status 1 still returns
a filesystem in which all five directories exist. -/
theorem abort_still_creates_dirs (fs : Fs) (denv : DiscoveryEnv)
    (in_dir atlas od slicer : FPath) (pat : Option String) (rcv ow : Bool)
    (bt : Nat) (env : FPath → CaseEnv)
    (habort : isFile (setup_output_dirs fs od).1 slicer = false ∨
      isFile (setup_output_dirs fs od).1 atlas = false ∨
      find_images (setup_output_dirs fs od).1 denv in_dir pat rcv = []) :
    (run_batch fs denv in_dir atlas od slicer pat rcv ow bt env).fs =
      (setup_output_dirs fs od).1 ∧
    (∀ d ∈ outSubdirs od,
      (run_batch fs denv in_dir atlas od slicer pat rcv ow bt env).fs d =
        FsEntry.dir) ∧
    ((run_batch fs denv in_dir atlas od slicer pat rcv ow bt
        env).exitCode = 2 ∨
     (run_batch fs denv in_dir atlas od slicer pat rcv ow bt
        env).exitCode = 1) := by
  have hd := setup_creates_dirs fs od
  cases h1 : isFile (setup_output_dirs fs od).1 slicer with
  | false =>
    have hfs : (run_batch fs denv in_dir atlas od slicer pat rcv ow bt
        env).fs = (setup_output_dirs fs od).1 := by simp [run_batch, h1]
    have hex : (run_batch fs denv in_dir atlas od slicer pat rcv ow bt
        env).exitCode = 2 := by simp [run_batch, h1]
    exact ⟨hfs, fun d hdd => by rw [hfs]; exact hd d hdd, Or.inl hex⟩
  | true =>
    cases h2 : isFile (setup_output_dirs fs od).1 atlas with
    | false =>
      have hfs : (run_batch fs denv in_dir atlas od slicer pat rcv ow bt
          env).fs = (setup_output_dirs fs od).1 := by
        simp [run_batch, h1, h2]
      have hex : (run_batch fs denv in_dir atlas od slicer pat rcv ow bt
          env).exitCode = 2 := by simp [run_batch, h1, h2]
      exact ⟨hfs, fun d hdd => by rw [hfs]; exact hd d hdd, Or.inl hex⟩
    | true =>
      have he : find_images (setup_output_dirs fs od).1 denv in_dir pat rcv
          = [] := by
        rcases habort with h | h | h
        · rw [h1] at h; cases h
        · rw [h2] at h; cases h
        · exact h
      have hfs : (run_batch fs denv in_dir atlas od slicer pat rcv ow bt
          env).fs = (setup_output_dirs fs od).1 := by
        simp [run_batch, h1, h2, he]
      have hex : (run_batch fs denv in_dir atlas od slicer pat rcv ow bt
          env).exitCode = 1 := by simp [run_batch, h1, h2, he]
      exact ⟨hfs, fun d hdd => by rw [hfs]; exact hd d hdd, Or.inr hex⟩

/-- Witness for C10: a batch whose launcher is missing aborts, yet its
returned filesystem has the five output directories. -/
theorem abort_still_creates_dirs_witness :
    (∀ d ∈ outSubdirs "out",
      (run_batch emptyFs denvEmpty "in" "atlas.nii" "out" "slicer" none
        false false 1800 envBatch).fs d = FsEntry.dir) ∧
    ((run_batch emptyFs denvEmpty "in" "atlas.nii" "out" "slicer" none
        false false 1800 envBatch).exitCode = 2 ∨
     (run_batch emptyFs denvEmpty "in" "atlas.nii" "out" "slicer" none
        false false 1800 envBatch).exitCode = 1) :=
  have h := abort_still_creates_dirs emptyFs denvEmpty "in" "atlas.nii"
    "out" "slicer" none false false 1800 envBatch (Or.inl (by decide))
  ⟨h.2.1, h.2.2⟩

/-! ### C9 — work discovery -/

/-- Equal character data means equal strings. -/
theorem str_data_inj {a b : String} (h : a.data = b.data) : a = b := by
  cases a
  cases b
  exact congrArg String.mk h

/-- `charListLt` is the lexicographic strict order on character lists. -/
theorem charListLt_iff_lex : ∀ x y : List Char,
    charListLt x y = true ↔ List.Lex (· < ·) x y
  | [], [] => by
    constructor
    · intro h
      cases h
    · intro h
      exact absurd h (List.Lex.not_nil_right _ _)
  | [], b :: bs => by
    simp only [charListLt, true_iff]
    exact List.Lex.nil
  | a :: as, [] => by
    constructor
    · intro h
      cases h
    · intro h
      exact absurd h (List.Lex.not_nil_right _ _)
  | a :: as, b :: bs => by
    by_cases h1 : a < b
    · simp only [charListLt, if_pos h1, true_iff]
      exact List.Lex.rel h1
    · by_cases h2 : b < a
      · simp only [charListLt, if_neg h1, if_pos h2, Bool.false_eq_true,
          false_iff]
        intro h
        cases h with
        | cons h => exact absurd h2 (lt_irrefl a)
        | rel h => exact absurd h h1
      · have hab : a = b := le_antisymm (le_of_not_lt h2) (le_of_not_lt h1)
        subst hab
        simp only [charListLt, if_neg h1, if_neg h2]
        rw [charListLt_iff_lex as bs]
        exact (List.Lex.cons_iff (r := (· < ·))).symm

/-- `strLe` agrees with the lexicographic order on strings. -/
theorem strLe_iff_le (a b : String) : strLe a b = true ↔ a ≤ b := by
  rw [String.le_iff_toList_le, ← not_lt]
  have h1 : strLe a b = true ↔ ¬ charListLt b.data a.data = true := by
    simp [strLe]
  rw [h1]
  exact not_congr (charListLt_iff_lex b.data a.data)

/-- `partsLt` is the lexicographic strict order on component tuples,
with components compared lexicographically. -/
theorem partsLt_iff_lex : ∀ x y : List (List Char),
    partsLt x y = true ↔ List.Lex (· < ·) x y
  | [], [] => by
    constructor
    · intro h
      cases h
    · intro h
      exact absurd h (List.Lex.not_nil_right _ _)
  | [], b :: bs => by
    simp only [partsLt, true_iff]
    exact List.Lex.nil
  | a :: as, [] => by
    constructor
    · intro h
      cases h
    · intro h
      exact absurd h (List.Lex.not_nil_right _ _)
  | a :: as, b :: bs => by
    have hab : charListLt a b = true ↔ a < b := charListLt_iff_lex a b
    have hba : charListLt b a = true ↔ b < a := charListLt_iff_lex b a
    by_cases h1 : a < b
    · simp only [partsLt, if_pos (hab.mpr h1), true_iff]
      exact List.Lex.rel h1
    · have h1b : ¬ charListLt a b = true := fun h => h1 (hab.mp h)
      by_cases h2 : b < a
      · simp only [partsLt, if_neg h1b, if_pos (hba.mpr h2),
          Bool.false_eq_true, false_iff]
        intro h
        cases h with
        | cons h => exact absurd h2 (lt_irrefl a)
        | rel h => exact absurd h h1
      · have h2b : ¬ charListLt b a = true := fun h => h2 (hba.mp h)
        have haeq : a = b := le_antisymm (le_of_not_lt h2) (le_of_not_lt h1)
        subst haeq
        simp only [partsLt, if_neg h1b, if_neg h2b]
        rw [partsLt_iff_lex as bs]
        exact (List.Lex.cons_iff (r := (· < ·))).symm

/-- `pathLe` agrees with the lexicographic order on component tuples. -/
theorem pathLe_iff (a b : FPath) :
    pathLe a b = true ↔ splitSlash a.data ≤ splitSlash b.data := by
  rw [← not_lt]
  have h1 : pathLe a b = true ↔
      ¬ partsLt (splitSlash b.data) (splitSlash a.data) = true := by
    simp [pathLe]
  rw [h1]
  exact not_congr (partsLt_iff_lex (splitSlash b.data) (splitSlash a.data))

instance : IsTotal FPath (fun a b => pathLe a b = true) :=
  ⟨fun a b => by
    rcases le_total (splitSlash a.data) (splitSlash b.data) with h | h
    · exact Or.inl ((pathLe_iff a b).mpr h)
    · exact Or.inr ((pathLe_iff b a).mpr h)⟩

instance : IsTrans FPath (fun a b => pathLe a b = true) :=
  ⟨fun a b c hab hbc =>
    (pathLe_iff a c).mpr
      (le_trans ((pathLe_iff a b).mp hab) ((pathLe_iff b c).mp hbc))⟩

/-- `sortPaths` sorts ascending with respect to the path order. -/
theorem sortPaths_sorted (l : List FPath) :
    List.Sorted (fun a b => pathLe a b = true) (sortPaths l) :=
  List.sorted_insertionSort _ l

/-- `splitSlash` never returns the empty list. -/
theorem splitSlash_ne_nil : ∀ cs : List Char, splitSlash cs ≠ [] := by
  intro cs
  cases cs with
  | nil => simp [splitSlash]
  | cons c rest =>
    simp only [splitSlash]
    by_cases hc : c = '/'
    · simp [hc]
    · cases hS : splitSlash rest <;> simp [hc, hS]

/-- Splitting distributes over a separator between two pieces. -/
theorem splitSlash_append (b : List Char) :
    ∀ a : List Char,
      splitSlash (a ++ '/' :: b) = splitSlash a ++ splitSlash b := by
  intro a
  induction a with
  | nil => simp [splitSlash]
  | cons c cs ih =>
    by_cases hc : c = '/'
    · subst hc
      simp [splitSlash, ih]
    · cases hS : splitSlash cs with
      | nil => exact absurd hS (splitSlash_ne_nil cs)
      | cons h t => simp [splitSlash, hc, ih, hS]

/-- A slash-free character list is a single component. -/
theorem splitSlash_no_slash {f : List Char} (hf : '/' ∉ f) :
    splitSlash f = [f] := by
  induction f with
  | nil => rfl
  | cons c cs ih =>
    have hc : c ≠ '/' := fun h => hf (h ▸ List.mem_cons_self c cs)
    have hcs : '/' ∉ cs := fun h => hf (List.mem_cons_of_mem c h)
    simp [splitSlash, hc, ih hcs]

/-- `charListLt` is irreflexive. -/
theorem charListLt_irrefl (a : List Char) : charListLt a a = false := by
  induction a with
  | nil => rfl
  | cons c cs ih => simp [charListLt, lt_irrefl, ih]

/-- Strict string comparison ignores a common prefix. -/
theorem charListLt_append_same (p : List Char) :
    ∀ x y, charListLt (p ++ x) (p ++ y) = charListLt x y := by
  induction p with
  | nil => intro x y; rfl
  | cons c cs ih => intro x y; simp [charListLt, lt_irrefl, ih]

/-- Strict tuple comparison ignores a common prefix. -/
theorem partsLt_append_same (p : List (List Char)) :
    ∀ x y, partsLt (p ++ x) (p ++ y) = partsLt x y := by
  induction p with
  | nil => intro x y; rfl
  | cons c cs ih => intro x y; simp [partsLt, charListLt_irrefl, ih]

/-- On single components, tuple comparison is string comparison. -/
theorem partsLt_single (x y : List Char) :
    partsLt [x] [y] = charListLt x y := by
  cases hxy : charListLt x y <;> cases hyx : charListLt y x <;>
    simp [partsLt, hxy, hyx]

/-- For two names in the same directory, neither containing a slash,
the path order and the full-string order agree. -/
theorem pathLe_join_eq_strLe (d : FPath) (f g : String)
    (hf : '/' ∉ f.data) (hg : '/' ∉ g.data) :
    pathLe (joinPath d f) (joinPath d g) =
      strLe (joinPath d f) (joinPath d g) := by
  have hdf : (joinPath d f).data = d.data ++ '/' :: f.data := by
    simp [joinPath, String.data_append]
  have hdg : (joinPath d g).data = d.data ++ '/' :: g.data := by
    simp [joinPath, String.data_append]
  rw [pathLe, strLe, hdf, hdg, splitSlash_append, splitSlash_append,
    splitSlash_no_slash hf, splitSlash_no_slash hg, partsLt_append_same,
    partsLt_single]
  have h1 : d.data ++ '/' :: g.data = (d.data ++ ['/']) ++ g.data := by
    simp
  have h2 : d.data ++ '/' :: f.data = (d.data ++ ['/']) ++ f.data := by
    simp
  rw [h1, h2, charListLt_append_same]

/-- `sortPaths` is a permutation of its input. -/
theorem sortPaths_perm (l : List FPath) : (sortPaths l).Perm l :=
  List.perm_insertionSort _ l

/-- Membership is preserved by sorting. -/
theorem mem_sortPaths {l : List FPath} {p : FPath} :
    p ∈ sortPaths l ↔ p ∈ l :=
  (sortPaths_perm l).mem_iff

/-- Sorting a duplicate-free list is duplicate-free. -/
theorem sortPaths_nodup {l : List FPath} (h : l.Nodup) :
    (sortPaths l).Nodup :=
  ((sortPaths_perm l).nodup_iff).mpr h

/-- Joining a fixed directory with two names is injective in the name. -/
theorem joinPath_right_inj (d : FPath) {f g : String}
    (h : joinPath d f = joinPath d g) : f = g :=
  str_append_left_cancel (a := d ++ "/") h

/-- Splitting a character-list equation at a separator that occurs in
neither first component. -/
theorem append_sep_inj : ∀ (a c b d : List Char),
    '/' ∉ a → '/' ∉ c → a ++ '/' :: b = c ++ '/' :: d → a = c ∧ b = d := by
  intro a
  induction a with
  | nil =>
    intro c b d _ hc h
    cases c with
    | nil => simpa using h
    | cons y ys =>
      simp only [List.nil_append, List.cons_append, List.cons.injEq] at h
      exact absurd (h.1 ▸ List.mem_cons_self y ys) hc
  | cons x xs ih =>
    intro c b d ha hc h
    cases c with
    | nil =>
      simp only [List.nil_append, List.cons_append, List.cons.injEq] at h
      exact absurd (h.1 ▸ List.mem_cons_self x xs) ha
    | cons y ys =>
      simp only [List.cons_append, List.cons.injEq] at h
      obtain ⟨rfl, h2⟩ := h
      obtain ⟨h3, h4⟩ := ih ys b d (fun hm => ha (List.mem_cons_of_mem x hm))
        (fun hm => hc (List.mem_cons_of_mem x hm)) h2
      exact ⟨by rw [h3], h4⟩

/-- When both joined names are slash-free, equal joined paths force
equal roots and equal names. -/
theorem joinPath_inj_full {r1 r2 : FPath} {f1 f2 : String}
    (h1 : '/' ∉ f1.data) (h2 : '/' ∉ f2.data)
    (h : joinPath r1 f1 = joinPath r2 f2) : r1 = r2 ∧ f1 = f2 := by
  have hd := congrArg String.data h
  simp only [joinPath, String.data_append] at hd
  have hrev := congrArg List.reverse hd
  simp only [List.reverse_append] at hrev
  have hrev2 : f1.data.reverse ++ '/' :: r1.data.reverse =
      f2.data.reverse ++ '/' :: r2.data.reverse := by
    simpa using hrev
  have hmem1 : '/' ∉ f1.data.reverse := fun hm =>
    h1 (List.mem_reverse.mp hm)
  have hmem2 : '/' ∉ f2.data.reverse := fun hm =>
    h2 (List.mem_reverse.mp hm)
  obtain ⟨hf, hr⟩ := append_sep_inj _ _ _ _ hmem1 hmem2 hrev2
  constructor
  · exact str_data_inj (List.reverse_injective hr)
  · exact str_data_inj (List.reverse_injective hf)

/-- Duplicate-freeness of the recursive-walk discovery output before
sorting. -/
theorem walk_flatten_nodup (walk : List (FPath × List String))
    (hroots : (walk.map Prod.fst).Nodup)
    (hfiles : ∀ rf ∈ walk, rf.2.Nodup)
    (hnoslash : ∀ rf ∈ walk, ∀ f ∈ rf.2, '/' ∉ f.data) :
    ((walk.map (fun rf => (rf.2.filter matchesExt).map
      (joinPath rf.1))).flatten).Nodup := by
  rw [List.nodup_flatten]
  constructor
  · intro l hl
    rcases List.mem_map.mp hl with ⟨rf, hrf, rfl⟩
    exact ((hfiles rf hrf).filter _).map
      (fun f g h => joinPath_right_inj rf.1 h)
  · rw [List.pairwise_map]
    have hp : List.Pairwise (fun rf1 rf2 : FPath × List String =>
        rf1.1 ≠ rf2.1) walk := List.pairwise_map.mp hroots
    refine List.Pairwise.imp_of_mem ?_ hp
    intro rf1 rf2 hm1 hm2 hne p hp1 hp2
    rcases List.mem_map.mp hp1 with ⟨f1, hf1, rfl⟩
    rcases List.mem_map.mp hp2 with ⟨f2, hf2, heq⟩
    have hs1 := hnoslash rf1 hm1 f1 (List.mem_of_mem_filter hf1)
    have hs2 := hnoslash rf2 hm2 f2 (List.mem_of_mem_filter hf2)
    exact hne (joinPath_inj_full hs1 hs2 heq.symm).1

/-- C9 is false in its "lexicographically sorted" clause: in the
recursive-walk mode, Python sorts `Path` values by their component
tuples, so with `a.b.nii` at the root and `c.nii` in subdirectory
`in/a`, discovery returns `in/a/c.nii` before `in/a.b.nii`, which is
not sorted in full-string lexicographic order (`.` sorts before
`/`). -/
theorem find_images_not_string_sorted_cex :
    find_images emptyFs denvLex "in" none true =
      ["in/a/c.nii", "in/a.b.nii"] ∧
    ¬ List.Sorted (· ≤ ·) (find_images emptyFs denvLex "in" none true) := by
  have he : find_images emptyFs denvLex "in" none true =
      ["in/a/c.nii", "in/a.b.nii"] := by decide
  refine ⟨he, ?_⟩
  intro h
  rw [he] at h
  have hle : ("in/a/c.nii" : String) ≤ "in/a.b.nii" :=
    (List.sorted_cons.mp h).1 _ (List.mem_singleton.mpr rfl)
  have hb : strLe "in/a/c.nii" "in/a.b.nii" = true :=
    (strLe_iff_le _ _).mpr hle
  exact absurd hb (by decide)

/-- C9 amended: work discovery is a total function of the root, the
optional glob pattern and the recursive flag; in every mode it returns
a duplicate-free sequence sorted by Python's path order — lexicographic
over the tuple of `/`-separated components, each component compared
lexicographically — which coincides with full-string lexicographic
order in the flat (non-recursive, no-pattern) mode but differs from it
for mixed-depth results; with no pattern it keeps exactly the names
matching the fixed extension allow-list case-insensitively, where
matching is whole-trailing-string (so the compound `.nii.gz` suffix,
which is in the allow-list, matches as a unit); with a pattern it keeps
exactly the glob results that are regular files; and it returns the
empty sequence, not an error, when nothing matches. -/
theorem find_images_spec (fs : Fs) (denv : DiscoveryEnv) (in_dir : FPath)
    (pat : String) (rcv : Bool)
    (hlist : denv.listing.Nodup)
    (hflat : ∀ f ∈ denv.listing, '/' ∉ f.data)
    (hglob : denv.globResults.Nodup)
    (hroots : (denv.walk.map Prod.fst).Nodup)
    (hfiles : ∀ rf ∈ denv.walk, rf.2.Nodup)
    (hnoslash : ∀ rf ∈ denv.walk, ∀ f ∈ rf.2, '/' ∉ f.data) :
    (∀ (po : Option String) (rv : Bool),
      List.Sorted (fun a b => pathLe a b = true)
        (find_images fs denv in_dir po rv)) ∧
    (∀ a b : FPath, pathLe a b = true ↔
      splitSlash a.data ≤ splitSlash b.data) ∧
    List.Sorted (· ≤ ·) (find_images fs denv in_dir none false) ∧
    (find_images fs denv in_dir none false).Nodup ∧
    (find_images fs denv in_dir (some pat) rcv).Nodup ∧
    (find_images fs denv in_dir none true).Nodup ∧
    (∀ p, p ∈ find_images fs denv in_dir none false ↔
      ∃ f ∈ denv.listing, matchesExt f = true ∧ p = joinPath in_dir f) ∧
    (∀ p, p ∈ find_images fs denv in_dir (some pat) rcv ↔
      p ∈ denv.globResults ∧ isFile fs p = true) ∧
    (∀ p, p ∈ find_images fs denv in_dir none true ↔
      ∃ rf ∈ denv.walk, ∃ f ∈ rf.2, matchesExt f = true ∧
        p = joinPath rf.1 f) ∧
    (∀ f, matchesExt f = true ↔
      ∃ e ∈ VALID_EXTS, strEndsWith (strLower f) e = true) ∧
    (∀ s post, strEndsWith s post = true ↔ post.data <:+ s.data) ∧
    ".nii.gz" ∈ VALID_EXTS ∧
    (denv.listing = [] → find_images fs denv in_dir none false = []) ∧
    (denv.globResults = [] →
      find_images fs denv in_dir (some pat) rcv = []) ∧
    (denv.walk = [] → find_images fs denv in_dir none true = []) := by
  have eflat : find_images fs denv in_dir none false =
      sortPaths ((denv.listing.filter matchesExt).map (joinPath in_dir)) :=
    rfl
  have epat : find_images fs denv in_dir (some pat) rcv =
      sortPaths (denv.globResults.filter (fun p => isFile fs p)) := rfl
  have ewalk : find_images fs denv in_dir none true =
      sortPaths ((denv.walk.map (fun rf => (rf.2.filter matchesExt).map
        (joinPath rf.1))).flatten) := rfl
  refine ⟨?_, ?_, ?_, ?_, ?_, ?_, ?_, ?_, ?_, ?_, ?_, ?_, ?_, ?_, ?_⟩
  · intro po rv
    cases po with
    | none =>
      cases rv with
      | false => exact sortPaths_sorted _
      | true => exact sortPaths_sorted _
    | some q => exact sortPaths_sorted _
  · exact pathLe_iff
  · rw [eflat]
    refine List.Pairwise.imp_of_mem ?_
      (sortPaths_sorted ((denv.listing.filter matchesExt).map
        (joinPath in_dir)))
    intro x y hx hy hxy
    rcases List.mem_map.mp (mem_sortPaths.mp hx) with ⟨f, hf, rfl⟩
    rcases List.mem_map.mp (mem_sortPaths.mp hy) with ⟨g, hg, rfl⟩
    have hfs := hflat f (List.mem_of_mem_filter hf)
    have hgs := hflat g (List.mem_of_mem_filter hg)
    rw [pathLe_join_eq_strLe in_dir f g hfs hgs] at hxy
    exact (strLe_iff_le _ _).mp hxy
  · exact eflat ▸ sortPaths_nodup
      ((hlist.filter _).map (fun f g h => joinPath_right_inj in_dir h))
  · exact epat ▸ sortPaths_nodup (hglob.filter _)
  · exact ewalk ▸ sortPaths_nodup
      (walk_flatten_nodup denv.walk hroots hfiles hnoslash)
  · intro p
    rw [eflat, mem_sortPaths]
    simp only [List.mem_map, List.mem_filter]
    constructor
    · rintro ⟨f, ⟨hf, hm⟩, rfl⟩
      exact ⟨f, hf, hm, rfl⟩
    · rintro ⟨f, hf, hm, rfl⟩
      exact ⟨f, ⟨hf, hm⟩, rfl⟩
  · intro p
    rw [epat, mem_sortPaths]
    simp [List.mem_filter]
  · intro p
    rw [ewalk, mem_sortPaths]
    simp only [List.mem_flatten, List.mem_map, List.mem_filter]
    constructor
    · rintro ⟨l, ⟨rf, hrf, rfl⟩, hp⟩
      rcases List.mem_map.mp hp with ⟨f, hf, rfl⟩
      rcases List.mem_filter.mp hf with ⟨hf1, hf2⟩
      exact ⟨rf, hrf, f, hf1, hf2, rfl⟩
    · rintro ⟨rf, hrf, f, hf1, hf2, rfl⟩
      exact ⟨(rf.2.filter matchesExt).map (joinPath rf.1), ⟨rf, hrf, rfl⟩,
        List.mem_map.mpr ⟨f, List.mem_filter.mpr ⟨hf1, hf2⟩, rfl⟩⟩
  · intro f
    simp [matchesExt, List.any_eq_true]
  · intro s post
    simp [strEndsWith]
  · simp [VALID_EXTS]
  · intro h
    rw [eflat, h]
    rfl
  · intro h
    rw [epat, h]
    rfl
  · intro h
    rw [ewalk, h]
    rfl

/-- Witness for the amended C9 at concrete discovery inputs: the flat
result is duplicate-free, and the compound-suffix, case-insensitive
match admits `B.NII.GZ`. -/
theorem find_images_spec_witness :
    (find_images fsW denvW "in" none false).Nodup ∧
    ("in/B.NII.GZ" ∈ find_images fsW denvW "in" none false ↔
      ∃ f ∈ denvW.listing, matchesExt f = true ∧
        "in/B.NII.GZ" = joinPath "in" f) :=
  have h := find_images_spec fsW denvW "in" "g*.nii" false (by decide)
    (by decide) (by decide) (by decide) (by decide) (by decide)
  ⟨h.2.2.2.1, h.2.2.2.2.2.2.1 "in/B.NII.GZ"⟩
end SlicerRegbet
